import Mathlib

/-!
Verification development for the `backbone-router` repository
(`src/backbone.router.js`): a shallow embedding of its route registry,
dispatch pipeline, trigger pipeline, auth gate and navigation controller,
followed by theorems settling the specification claims.

Modelling conventions:
* JavaScript strings are Lean `String`s; `undefined`/absent values are
  `Option.none`; JS string truthiness (`""` is falsy) is `truthyOpt`.
* The mutable module-level variables (`routes`, `extendedRoutes`,
  `extendedController`, `closeControllers`, `cachedTriggers`,
  `currentRoutes`, the merged `options` and `window.location`) form the
  `RouterState` record; JS objects used as string-keyed maps become
  insertion-ordered association lists (`lookup'`, `upsert`, `updateAssoc`),
  matching JS property-insertion order.
* Externally observable effects (calls on the dispatcher, on
  `router.navigate`, handler-chain invocations, user action bodies,
  close-guard invocations, `storeCurrentRoute`) are recorded as an
  ordered `List Event` trace.
* User-supplied route actions are opaque: `Action.fn id` emits
  `Event.action id args` when executed.  Close guards are modelled as
  Lean functions returning the JS-truthiness of their return value.
* The mutual recursion between `processControllers` / wrappers /
  `processTriggers` is genuinely non-well-founded in the source (alias
  cycles loop forever), so the embedding takes a fuel parameter; fuel
  exhaustion returns the state unchanged and every theorem supplies
  enough fuel for its inputs.
* Thrown TypeErrors are modelled: the dispatch pipeline returns a
  `threw` flag that propagates exactly like a JS exception (aborting
  the enclosing loops), set when `processControllers` dereferences a
  missing chain record (`extendedController[name].wrappers` on
  `undefined`, source line 572).  `go` returns a `JSOut`: a normal
  return value or `thrown`, the latter also covering the accesses `go`
  performs on `this.options` (lines 420, 426) and on `router`
  (line 465) when those module variables are still unassigned — the
  state records this with `optionsSet` (true once `start` has run its
  first line) and `routerSet` (true once `start` has constructed the
  Backbone router).
-/

namespace BRouter

/-- JS `str.split(sep)` for a one-character separator, on explicit
character lists: `""` splits to `[""]`, separators at the ends produce
empty segments, exactly like `String.prototype.split`. -/
def splitOnChar (c : Char) : List Char → List (List Char)
  | [] => [[]]
  | x :: rest =>
    let r := splitOnChar c rest
    if x == c then [] :: r
    else
      match r with
      | h :: t => (x :: h) :: t
      | [] => [[x]]

/-- Segments of a path split on `/` (JS `path.split("/")`). -/
def jsSplitSlash (s : String) : List String :=
  (splitOnChar ('/') s.data).map (fun cs => ⟨cs⟩)

/-- JS `Array.prototype.join("/")` on string segments. -/
def joinChar (c : Char) : List (List Char) → List Char
  | [] => []
  | [x] => x
  | x :: y :: rest => x ++ c :: joinChar c (y :: rest)

/-- Join segments back with `/` (JS `parts.join("/")`). -/
def jsJoinSlash (parts : List String) : String :=
  ⟨joinChar ('/') (parts.map (fun s => s.data))⟩

/-- JS `s.charAt(0) == ":"` (false on the empty string). -/
def headIsColon (s : String) : Bool :=
  match s.data with
  | c :: _ => c == (':')
  | [] => false

/-- JS `path.charAt(0) == "/" ? path.substring(1) : path`. -/
def stripSlash (s : String) : String :=
  match s.data with
  | c :: rest => if c == ('/') then ⟨rest⟩ else s
  | [] => s

/-- JS `s.substring(1)` (drop the first character). -/
def jsSubstr1 (s : String) : String := ⟨s.data.drop 1⟩

/-- JS truthiness of a possibly-absent string: `undefined`, `null` and
`""` are falsy, every other string is truthy. -/
def truthyOpt : Option String → Bool
  | none => false
  | some s => !(s.data.isEmpty)

/-- First-match association-list lookup (JS property read on a
string-keyed object). -/
def lookup' {α : Type} (m : List (String × α)) (k : String) : Option α :=
  (m.find? (fun kv => kv.1 == k)).map (fun kv => kv.2)

/-- Property write: replace the value in place if the key exists
(JS keeps the original insertion position), else append. -/
def upsert {α : Type} (m : List (String × α)) (k : String) (v : α) :
    List (String × α) :=
  match m with
  | [] => [(k, v)]
  | kv :: rest => if kv.1 == k then (k, v) :: rest else kv :: upsert rest k v

/-- In-place update of the value stored at an existing key (JS mutation
of the object held in a property, e.g. `.push` or field assignment). -/
def updateAssoc {α : Type} (m : List (String × α)) (k : String) (f : α → α) :
    List (String × α) :=
  match m with
  | [] => []
  | kv :: rest =>
    if kv.1 == k then (kv.1, f kv.2) :: rest else kv :: updateAssoc rest k f

/-- `parse(path, args)` of the source (lines 666-685): if `args` is not a
non-empty array the path is returned unchanged; otherwise the path is
split on `/`, each segment whose first character is `:` is replaced by
the next unused element of `args` (an exhausted `args` yields JS
`undefined`, which `join` renders as the empty string), and everything
is joined back with `/`. -/
def substituteSegs : List String → List String → Nat → List String
  | [], _, _ => []
  | part :: rest, args, idx =>
    if headIsColon part then
      (args.getD idx ("")) :: substituteSegs rest args (idx + 1)
    else
      part :: substituteSegs rest args idx

def parse (path : String) (args : List String) : String :=
  if args.isEmpty then path
  else jsJoinSlash (substituteSegs (jsSplitSlash path) args 0)

/-- Modelled from the spec's words for comparison with `parse`
(spec 4.5): split the template on `/`; a segment beginning with the
parameter marker consumes the next unused element of `args`
left-to-right; non-parameter segments pass through unchanged. -/
def specSubstitute : List String → List String → List String
  | [], _ => []
  | seg :: rest, args =>
    if headIsColon seg then
      (args.headD ("")) :: specSubstitute rest (args.drop 1)
    else
      seg :: specSubstitute rest args

def specParse (template : String) (args : List String) : String :=
  jsJoinSlash (specSubstitute (jsSplitSlash template) args)

/-- A trigger (source doc, lines 244-260): either a bare name, or an
object carrying a name, optional arguments and a cache mark. -/
inductive Trigger where
  | str (name : String)
  | obj (name : String) (args : Option (List String)) (cache : Bool)
  deriving DecidableEq

/-- A route action: absent, a user callable (opaque, identified by a
tag and observed through `Event.action`), or the name of another route
(an alias, source lines 346-356). -/
inductive Action where
  | absent
  | fn (id : String)
  | aliasTo (target : String)
  deriving DecidableEq

/-- Navigate options merged at source line 451. -/
structure NavOpts where
  trigger : Bool := true
  replace : Bool := false
  deriving DecidableEq

/-- A close controller (source lines 312-315, 432-440): called with the
target name, the arguments and the options; the model keeps the
JS-truthiness of its return value. -/
def Guard : Type := Option String → Option (List String) → Option NavOpts → Bool

/-- A route definition object as accepted by `route(name, def)`
(source lines 207-274). -/
structure RouteDef where
  path : Option String := none
  authed : Option Bool := none
  before : List Trigger := []
  action : Action := .absent
  after : List Trigger := []
  close : Option Guard := none

/-- One handler-chain entry: the `controllerWrapper` closure of source
lines 317-372, which captures the registration-time route name
(`currentName`) and the definition object. -/
structure Entry where
  currentName : String
  rdef : RouteDef

/-- The per-name record in `extendedController` (source lines 290-293):
a compiled path matcher (`null` until `start` fills it in) and the list
of wrapper entries. -/
structure ChainRec where
  re : Option (String → Bool) := none
  wrappers : List Entry := []

/-- One element of `cachedTriggers`: `_.extend({}, trigger)` copies the
trigger's fields, and `done` is absent (falsy) until set (source lines
584-597, 505-517). -/
structure CacheRec where
  name : String
  args : Option (List String) := none
  cache : Bool := true
  done : Bool := false

/-- The subset of the merged options that the dispatch pipeline reads
(source lines 64-86; `root`, `debug` and the log sink have no
observable effect in the model). -/
structure Options where
  pushState : Bool := true
  authed : Bool := false
  redirectToLogin : Bool := false

/-- The external `window.location`, read by `go`, the auth gate and
`storeCurrentRoute`. -/
structure Location where
  pathname : String := ""
  hash : String := ""

/-- The module-level mutable state of the router. `controller[name]`
closures are not stored: each one only forwards to
`processControllers(name, arguments)` (source lines 303-306), which the
model invokes directly on a path-match dispatch.

`optionsSet` records whether `this.options` has been assigned — its
first assignment is the first line of `start` (source line 121), so it
is false exactly on a router on which `start` was never called; while
it is false, any `this.options` dereference throws.  `routerSet`
records whether the module variable `router` holds the constructed
Backbone router (source line 144; it stays `null` both before `start`
and after a `start` that bailed out for lack of a dispatcher), and
while it is false `router.navigate` throws.  When `optionsSet` is
false, `options` holds irrelevant defaults. -/
structure RouterState where
  routes : List (String × String) := []
  extendedRoutes : List (String × List String) := []
  extendedController : List (String × ChainRec) := []
  closeControllers : List (String × Guard) := []
  cachedTriggers : List CacheRec := []
  currentRoutes : List String := []
  options : Options := {}
  optionsSet : Bool := true
  routerSet : Bool := true
  loc : Location := {}

/-- The outcome of a public entry point: a normal JS return value
(`none` is `undefined`) or a propagated exception. -/
inductive JSOut where
  | ret (v : Option Bool)
  | thrown
  deriving DecidableEq

/-- Observable effects, in execution order. `ctrl` records an
invocation of `processControllers`; `action` the execution of a user
action body; `dispatch` a call on the external event dispatcher;
`navigate` the hand-off to the history facility; `closeGuard` a
close-controller invocation with its result; `storeRoute` the
`storeCurrentRoute` persistence call. -/
inductive Event where
  | ctrl (name : String) (args : List String) (trigger : Bool)
  | action (id : String) (args : List String)
  | dispatch (name : String) (payload : List (Option String))
  | navigate (path : String) (trigger replace : Bool)
  | closeGuard (route : String) (result : Bool)
  | storeRoute (path : String)
  deriving DecidableEq

/-- JS property keys stringify: `extendedRoutes[def.path]` with an
absent path uses the literal key `"undefined"` (and would collide with
a real path spelled `"undefined"`, as in the source). -/
def pathKey (p : Option String) : String := p.getD ("undefined")

/-- The current raw path: `pathname.substring(1)` under pushState, else
`hash.substring(1)` (source lines 169-170, 340-341, 429-430). -/
def rawPath (st : RouterState) : String :=
  if st.options.pushState then jsSubstr1 st.loc.pathname else jsSubstr1 st.loc.hash

/-- Parameter object of `exists` (source lines 636-656). -/
structure ExistsParams where
  name : Option String := none
  path : Option String := none

/-- `exists(params)` of the source (renamed: `exists` is reserved in
Lean): a truthy `name` is looked up in `extendedController`; else a
truthy `path` is tested against every compiled matcher; else false. -/
def routeExists (st : RouterState) (params : ExistsParams) : Bool :=
  if truthyOpt params.name then
    (lookup' st.extendedController (params.name.getD (""))).isSome
  else if truthyOpt params.path then
    st.extendedController.any (fun kc =>
      match kc.2.re with
      | some m => m (params.path.getD (""))
      | none => false)
  else false

/-- `path(routeName)` of the source (lines 614-627, renamed to avoid
clashing with the `RouteDef.path` projection): scan `extendedRoutes`,
overwriting the result on every name match, so the last match wins;
`none` models the `false` result.  The source's `!_.isUndefined(path)`
guard is always true — object keys are strings, including the
stringified `"undefined"` key of pathless routes. -/
def pathOf (st : RouterState) (routeName : Option String) : Option String :=
  st.extendedRoutes.foldl (fun acc pr =>
    pr.2.foldl (fun acc2 r =>
      if routeName == some r then some pr.1 else acc2) acc) none

/-- `route(name, def)` of the source (lines 265-390).  The owner check
`if (routes[def.path])` (line 282) is a JS truthiness test: an absent
binding and a falsy (empty-string) owner name both take the fresh
branch, which resets the `extendedRoutes` placeholder, allocates a
fresh chain record, and (re)binds the path to the new name. -/
def route (st : RouterState) (name : String) (rdef : RouteDef) : RouterState :=
  let rdef := { rdef with path := rdef.path.map stripSlash }
  let currentName := name
  let pk := pathKey rdef.path
  let fresh : RouterState → RouterState × String := fun st =>
    let st := { st with
      extendedRoutes := upsert st.extendedRoutes pk [],
      extendedController := upsert st.extendedController name ⟨none, []⟩ }
    let st :=
      if rdef.path.isSome then { st with routes := upsert st.routes pk name } else st
    (st, name)
  let (st, ownerName) :=
    match lookup' st.routes pk with
    | some owner => if truthyOpt (some owner) then (st, owner) else fresh st
    | none => fresh st
  let st :=
    match rdef.close with
    | some g => { st with closeControllers := upsert st.closeControllers currentName g }
    | none => st
  let entry : Entry := ⟨currentName, rdef⟩
  let st := { st with
    extendedRoutes := updateAssoc st.extendedRoutes pk (fun l => l ++ [currentName]) }
  let st := { st with
    extendedController := updateAssoc st.extendedController ownerName
      (fun c => { c with wrappers := c.wrappers ++ [entry] }) }
  if ownerName != currentName then
    { st with extendedController := upsert st.extendedController currentName ⟨none, [entry]⟩ }
  else st

/-- `findCachedTrigger(trigger)` (source lines 584-597): find the first
cached record with the trigger's name; if absent, push a copy (whose
`done` field is absent, i.e. falsy) and return it. -/
def findCachedTrigger (st : RouterState) (name : String) (targs : Option (List String))
    (cache : Bool) : RouterState × CacheRec :=
  match st.cachedTriggers.find? (fun r => r.name == name) with
  | some r0 => (st, r0)
  | none =>
    let newRec : CacheRec := { name := name, args := targs, cache := cache, done := false }
    ({ st with cachedTriggers := st.cachedTriggers ++ [newRec] }, newRec)

/-- `cache.done = true` mutates the record held in the array: set the
`done` flag on the first record with the given name. -/
def setDone : List CacheRec → String → List CacheRec
  | [], _ => []
  | r :: rest, n =>
    if r.name == n then { r with done := true } :: rest else r :: setDone rest n

/-- `clearCache()` (source lines 603-605). -/
def clearCache (st : RouterState) : RouterState := { st with cachedTriggers := [] }

/-- The matcher compilation performed by `start` (source lines 146-152):
for every registered path, store the compiled matcher (the external
`_routeToRegExp`, abstracted as a parameter) on the owning name's
chain.  Never called by the pre-start claims. -/
def compileMatchers (routeToRegExp : String → String → Bool) (st : RouterState) :
    RouterState :=
  st.routes.foldl (fun s pr =>
    if routeExists s { name := some pr.2 } then
      { s with extendedController := (updateAssoc s.extendedController pr.2
          (fun c => { c with re := some (routeToRegExp pr.1) })) }
    else s) st

mutual

/-- The `controllerWrapper` closure (source lines 317-372): push the
route name unless trigger-originated; run the auth gate (dispatching
`login` after storing the current route, or `403` with the raw path, on
failure); on an alias delegate to the target chain; else run the before
triggers, the action, and the after triggers.  The third component of
the result is the `threw` flag: a TypeError raised by a nested
`processControllers` propagates, and an exception in the before
triggers aborts the action and after triggers.  The wrapper reads
`self.options` for the gate and its logging; every dispatch path the
claims exercise runs on a router whose `start` has assigned
`this.options` (a pre-start `go` throws before reaching any wrapper,
see `go`), so these reads are modelled on the assigned record. -/
def runWrapper : Nat → RouterState → Entry → List String → Bool →
    RouterState × List Event × Bool
  | 0, st, _, _, _ => (st, [], false)
  | fuel + 1, st, e, args, trig =>
    let st := if trig then st else { st with currentRoutes := st.currentRoutes ++ [e.currentName] }
    let gateFails :=
      match e.rdef.authed with
      | some b => (b && !st.options.authed) || (!b && st.options.authed)
      | none => false
    if gateFails then
      if st.options.redirectToLogin && !st.options.authed then
        let r := processControllers fuel st ("login") none false
        (r.1, Event.storeRoute (rawPath st) :: r.2.1, r.2.2)
      else
        processControllers fuel st ("403") (some [rawPath st]) false
    else
      match e.rdef.action with
      | .aliasTo tgt => processControllers fuel st tgt (some args) true
      | act =>
        let r1 :=
          if e.rdef.before.isEmpty then (st, [], false)
          else processTriggers fuel st e.rdef.before
        if r1.2.2 then r1
        else
          let (st2, evs2) :=
            match act with
            | .fn id => (r1.1, [Event.action id args])
            | _ => (r1.1, [])
          let r3 :=
            if e.rdef.after.isEmpty then (st2, [], false)
            else processTriggers fuel st2 e.rdef.after
          (r3.1, r1.2.1 ++ evs2 ++ r3.2.1, r3.2.2)

/-- `processControllers(name, args, trigger)` (source lines 558-575):
default missing/null args to `[]`, then call every wrapper of the named
chain in order.  The invocation itself is recorded as `Event.ctrl`; on
a missing chain record the JS throws a `TypeError`
(`extendedController[name].wrappers` on `undefined`, line 572) — the
model records the invocation and sets the `threw` flag, and a wrapper
that throws aborts the `forEach` over the remaining wrappers. -/
def processControllers : Nat → RouterState → String → Option (List String) → Bool →
    RouterState × List Event × Bool
  | 0, st, name, argsOpt, trig => (st, [Event.ctrl name (argsOpt.getD []) trig], false)
  | fuel + 1, st, name, argsOpt, trig =>
    let args := argsOpt.getD []
    match lookup' st.extendedController name with
    | none => (st, [Event.ctrl name args trig], true)
    | some c =>
      c.wrappers.foldl
        (fun acc e =>
          if acc.2.2 then acc
          else
            let r := runWrapper fuel acc.1 e args trig
            (r.1, acc.2.1 ++ r.2.1, r.2.2))
        (st, [Event.ctrl name args trig], false)

/-- `processTrigger(trigger)` (source lines 499-549).  For an object
trigger the cache check runs first: a `done` record skips everything;
otherwise the record is created/marked done, then a trigger naming an
existing route delegates to that chain (trigger-originated, exceptions
propagating) and stops; otherwise the arguments are normalised
(non-array wrapped, so absent args dispatch a single `undefined`) and
handed to the dispatcher.  A string trigger naming a route delegates
likewise, else dispatches the bare name. -/
def processTrigger : Nat → RouterState → Trigger → RouterState × List Event × Bool
  | 0, st, _ => (st, [], false)
  | fuel + 1, st, t =>
    match t with
    | .obj name targs cache =>
      let (st, skip) :=
        if cache then
          let (st1, r0) := findCachedTrigger st name targs cache
          if r0.done then (st1, true)
          else ({ st1 with cachedTriggers := setDone st1.cachedTriggers name }, false)
        else (st, false)
      if skip then (st, [], false)
      else if routeExists st { name := some name } then
        processControllers fuel st name targs true
      else
        let payload : List (Option String) :=
          match targs with
          | none => [none]
          | some l => l.map some
        (st, [Event.dispatch name payload], false)
    | .str s =>
      if routeExists st { name := some s } then
        processControllers fuel st s none true
      else
        (st, [Event.dispatch s []], false)

/-- `processTriggers(triggers)` on the array form (source lines
478-491): process each element in order; an exception thrown by one
trigger propagates out of the `forEach`, aborting the rest. -/
def processTriggers : Nat → RouterState → List Trigger → RouterState × List Event × Bool
  | 0, st, _ => (st, [], false)
  | _ + 1, st, [] => (st, [], false)
  | fuel + 1, st, t :: rest =>
    let r1 := processTrigger fuel st t
    if r1.2.2 then r1
    else
      let r2 := processTriggers fuel r1.1 rest
      (r2.1, r1.2.1 ++ r2.2.1, r2.2.2)

end

/-- One iteration of the close-guard loop of `go` (source lines
434-440): if the route has a function close controller and its name
differs from the target, invoke the guard and overwrite the shared
`continueProcess` flag (the accumulator's first component) with its
result. -/
def guardStep (st : RouterState) (name : Option String) (args : Option (List String))
    (options : Option NavOpts) (acc : Bool × List Event) (r : String) :
    Bool × List Event :=
  match lookup' st.closeControllers r with
  | some g =>
    if name != some r then
      let res := g name args options
      (res, acc.2 ++ [Event.closeGuard r res])
    else acc
  | none => acc

/-- The close-guard loop of `go` (source lines 432-440). -/
def runCloseGuards (st : RouterState) (name : Option String)
    (args : Option (List String)) (options : Option NavOpts) : Bool × List Event :=
  st.currentRoutes.foldl (guardStep st name args options) (true, [])

/-- The first argument of `go`: a route name string, or an object with
optional `name`, `path` and `args` fields. -/
structure GoObj where
  name : Option String := none
  path : Option String := none
  args : Option (List String) := none

inductive GoArg where
  | str (s : String)
  | obj (o : GoObj)

/-- JS `(_.isObject(args) || _.isArray(args)) && !_.isEmpty(args)`
for an optional argument array. -/
def argsNonempty : Option (List String) → Bool
  | some (_ :: _) => true
  | _ => false

/-- `go(name, args, options)` (source lines 400-470).  The third
component of the result is the JS outcome: `.ret (some false)` for the
explicit `return false` sites, `.ret (some true)` for success,
`.ret none` for the 404 branch, which falls off the end of the
function and therefore returns `undefined`, and `.thrown` when an
exception escapes.  Both the missing-parameters branch (line 420) and
the not-found branch (line 426) begin with a `this.options.log` call,
so on a router where `start` never assigned `this.options` they throw
a TypeError before doing anything observable; a TypeError from the 404
dispatch itself (missing `404` chain) also propagates; and the commit
branch's `router.navigate` (line 465) throws when the module `router`
is still `null` — after `currentRoutes` has already been reset
(line 448) and the close guards have run. -/
def go (fuel : Nat) (st : RouterState) (arg : GoArg) (args0 : Option (List String))
    (options : Option NavOpts) : RouterState × List Event × JSOut :=
  let (name, path, args) :=
    match arg with
    | .str s => (some s, (none : Option String), args0)
    | .obj o => (o.name, o.path.map stripSlash, o.args.orElse (fun _ => args0))
  if !truthyOpt name && !truthyOpt path then
    if st.optionsSet then (st, [], .ret (some false)) else (st, [], .thrown)
  else if (truthyOpt name && !routeExists st { name := name }) ||
      (truthyOpt path && !routeExists st { path := path }) then
    if st.optionsSet then
      let r := processControllers fuel st ("404") (some [rawPath st]) false
      (r.1, r.2.1, if r.2.2 then .thrown else .ret none)
    else
      (st, [], .thrown)
  else
    let (continueProcess, gevs) := runCloseGuards st name args options
    if !continueProcess then
      (st, gevs, .ret (some false))
    else
      let st2 := { st with currentRoutes := [] }
      let opts := options.getD {}
      let path2 : Option String :=
        if truthyOpt path then path
        else
          match pathOf st2 name with
          | none => none
          | some p0 =>
            if argsNonempty args then some (parse p0 (args.getD [])) else some p0
      match path2 with
      | some pp =>
        if st.routerSet then
          (st2, gevs ++ [Event.navigate pp opts.trigger opts.replace], .ret (some true))
        else
          (st2, gevs, .thrown)
      | none => (st2, gevs, .ret (some true))

/-- The module state of a started router with the given merged options
and location, before any registrations: all registries empty, no
compiled matchers, no cached triggers, `this.options` assigned and the
Backbone router constructed. -/
def initState (opts : Options) (loc : Location) : RouterState :=
  { options := opts, loc := loc }

/-- The module state before any `start()` call: `this.options` and
`router` are still unassigned (so the accesses `go` performs on them
throw), and nothing is registered yet. -/
def preStart (loc : Location) : RouterState :=
  { optionsSet := false, routerSet := false, loc := loc }

/-- A sequence of independent top-level `processTrigger` calls, each
with fresh fuel, accumulating the event trace.  Each call is its own
entry into the router, so an exception escaping one call does not
prevent the later calls; the state and events up to each throw are
kept. -/
def processSeq (fuel : Nat) (st : RouterState) : List Trigger → RouterState × List Event
  | [] => (st, [])
  | t :: rest =>
    let r1 := processTrigger fuel st t
    let (st2, evs2) := processSeq fuel r1.1 rest
    (st2, r1.2.1 ++ evs2)

def isDispatchOf (n : String) : Event → Bool
  | .dispatch m _ => m == n
  | _ => false

/-- Number of external-dispatcher invocations for a given name. -/
def countDispatch (n : String) (evs : List Event) : Nat :=
  (evs.filter (isDispatchOf n)).length

def isCtrlOf (n : String) : Event → Bool
  | .ctrl m _ _ => m == n
  | _ => false

/-- Number of handler-chain invocations of a given route name. -/
def countCtrl (n : String) (evs : List Event) : Nat :=
  (evs.filter (isCtrlOf n)).length

/-- Whether the first cached record for a name is marked done. -/
def doneFor (st : RouterState) (n : String) : Bool :=
  match st.cachedTriggers.find? (fun r => r.name == n) with
  | some r => r.done
  | none => false

/-- The routes of `currentRoutes` whose close guard would actually be
invoked by `go` targeting `name`. -/
def relevantGuardRoutes (st : RouterState) (name : Option String) : List String :=
  st.currentRoutes.filter (fun r => (lookup' st.closeControllers r).isSome && name != some r)

/-- Every handler chain still has a `null` compiled matcher (the state
of affairs before `start` runs `compileMatchers`). -/
def allReNone (st : RouterState) : Prop :=
  ∀ kc ∈ st.extendedController, kc.2.re = none

/-- The value the close-guard loop would store for one route: the
guard's result, or `true` (no overwrite) when no guard is registered. -/
def guardValue (st : RouterState) (name : Option String) (args : Option (List String))
    (options : Option NavOpts) (r : String) : Bool :=
  match lookup' st.closeControllers r with
  | some g => g name args options
  | none => true

/-- The state after the cache bookkeeping of a non-skipped cache-marked
trigger: the record is created if needed and its `done` flag set. -/
def markCache (st : RouterState) (n : String) (targs : Option (List String)) :
    RouterState :=
  let st1 := (findCachedTrigger st n targs true).1
  { st1 with cachedTriggers := setDone st1.cachedTriggers n }

/-- A route definition consisting only of a path and a plain action. -/
def simpleDef (p aid : String) : RouteDef := { path := some p, action := .fn aid }

/-- The handler-chain entry such a registration stores (the path has
its leading slash already stripped). -/
def simpleEntry (n p aid : String) : Entry := ⟨n, simpleDef p aid⟩

/-- A close guard that always vetoes. -/
def cexGuardFalse : Guard := fun _ _ _ => false

/-- A close guard that always accepts. -/
def cexGuardTrue : Guard := fun _ _ _ => true

/-- A sample location: the browser sits on `/x`. -/
def cexLoc : Location := { pathname := "/x", hash := "" }

/-- Three registered routes: `a` (vetoing close guard), `b` (accepting
close guard), `c` (no close guard). -/
def cexStReg : RouterState :=
  route
    (route
      (route (initState {} cexLoc) ("a")
        { path := some ("/a"), action := .fn ("fa"), close := some cexGuardFalse })
      ("b") { path := some ("/b"), action := .fn ("fb"), close := some cexGuardTrue })
    ("c") { path := some ("/c"), action := .fn ("fc") }

/-- `cexStReg` after dispatching the chains of `a` and then `b`
(non-trigger), so `currentRoutes = ["a", "b"]`. -/
def cexStCur : RouterState :=
  (processControllers 9 (processControllers 9 cexStReg ("a") none false).1
    ("b") none false).1

/-- `cexStReg` after dispatching only `a`, so `currentRoutes = ["a"]`. -/
def cexStCurA : RouterState := (processControllers 9 cexStReg ("a") none false).1

/-- A router that registered only a `404` route, with the browser on
`/nope`. -/
def cexSt404 : RouterState :=
  route (initState {} { pathname := "/nope", hash := "" }) ("404")
    { path := some ("/missing"), action := .fn ("a404") }

/-- One registered route `r`, used by the trigger-versus-cache claims. -/
def cexStR : RouterState :=
  route (initState {} cexLoc) ("r") { path := some ("/r"), action := .fn ("fr") }

/-- A cache-marked trigger whose name is the registered route `r`. -/
def cexTrigR : Trigger := .obj ("r") (some []) true

/-- A never started router (`this.options` and `router` unassigned)
with one registered route. -/
def cexStPre : RouterState := route (preStart cexLoc) ("home") (simpleDef ("/home") ("fh"))

/-- A registration of path `/p` under the falsy (empty-string) name. -/
def cexStFalsy1 : RouterState := route (initState {} cexLoc) ("") (simpleDef ("/p") ("f1"))

/-- A second registration of the same path `/p` under the distinct
name `n2`. -/
def cexStFalsy2 : RouterState := route cexStFalsy1 ("n2") (simpleDef ("/p") ("f2"))

/-- A cache-marked trigger named `ev`, not a route name. -/
def cexTrigE : Trigger := .obj ("ev") (some [("1")]) true

/-- A router with a `403` route and a secured route `adm`
(`authed: true`), while the session is logged out. -/
def cexStAuth : RouterState :=
  route
    (route (initState {} cexLoc) ("403")
      { path := some ("/err"), action := .fn ("a403") })
    ("adm") { path := some ("/admin"), authed := some true, action := .fn ("fadm") }

/-- A router with a secured target route `sec` and an alias route `al`
pointing at it, the alias carrying its own before/after triggers. -/
def cexStAl : RouterState :=
  route
    (route (initState {} cexLoc) ("sec")
      { path := some ("/sec"), authed := some true, action := .fn ("fsec") })
    ("al") { path := some ("/al"), action := .aliasTo ("sec"),
             before := [.str ("x")], after := [.str ("y")] }

theorem lookup'_cons {α : Type} (kv : String × α) (m : List (String × α)) (k : String) :
    lookup' (kv :: m) k = if kv.1 == k then some kv.2 else lookup' m k := by
  simp only [lookup', List.find?]
  cases h : kv.1 == k <;> simp [h]

theorem lookup'_upsert_self {α : Type} (m : List (String × α)) (k : String) (v : α) :
    lookup' (upsert m k v) k = some v := by
  induction m with
  | nil => simp [upsert, lookup'_cons, lookup']
  | cons kv rest ih =>
    by_cases h : kv.1 = k
    · simp [upsert, h, lookup'_cons]
    · have hb : (kv.1 == k) = false := by simp [h]
      simp [upsert, hb, lookup'_cons, ih]

theorem lookup'_upsert_ne {α : Type} (m : List (String × α)) (k k' : String) (v : α)
    (h : k' ≠ k) : lookup' (upsert m k v) k' = lookup' m k' := by
  induction m with
  | nil =>
    have hb : (k == k') = false := beq_eq_false_iff_ne.mpr (Ne.symm h)
    simp [upsert, lookup'_cons, lookup', hb]
  | cons kv rest ih =>
    by_cases hk : kv.1 = k
    · have hb : (k == k') = false := beq_eq_false_iff_ne.mpr (Ne.symm h)
      simp [upsert, hk, lookup'_cons, hb]
    · have hb : (kv.1 == k) = false := beq_eq_false_iff_ne.mpr hk
      simp [upsert, hb, lookup'_cons, ih]

theorem lookup'_updateAssoc_self {α : Type} (m : List (String × α)) (k : String)
    (f : α → α) : lookup' (updateAssoc m k f) k = (lookup' m k).map f := by
  induction m with
  | nil => simp [updateAssoc, lookup']
  | cons kv rest ih =>
    by_cases h : kv.1 = k
    · simp [updateAssoc, h, lookup'_cons]
    · have hb : (kv.1 == k) = false := by simp [h]
      simp [updateAssoc, hb, lookup'_cons, ih]

theorem lookup'_updateAssoc_ne {α : Type} (m : List (String × α)) (k k' : String)
    (f : α → α) (h : k' ≠ k) : lookup' (updateAssoc m k f) k' = lookup' m k' := by
  induction m with
  | nil => simp [updateAssoc]
  | cons kv rest ih =>
    by_cases hk : kv.1 = k
    · have hb : (k == k') = false := beq_eq_false_iff_ne.mpr (Ne.symm h)
      simp [updateAssoc, hk, lookup'_cons, hb]
    · have hb : (kv.1 == k) = false := beq_eq_false_iff_ne.mpr hk
      simp [updateAssoc, hb, lookup'_cons, ih]

theorem mem_upsert {α : Type} (m : List (String × α)) (k : String) (v : α) :
    ∀ x ∈ upsert m k v, x ∈ m ∨ x = (k, v) := by
  induction m with
  | nil =>
    intro x hx
    exact Or.inr (by simpa [upsert] using hx)
  | cons kv rest ih =>
    intro x hx
    by_cases h : kv.1 = k
    · rw [show upsert (kv :: rest) k v = (k, v) :: rest by simp [upsert, h]] at hx
      rcases List.mem_cons.mp hx with hx | hx
      · exact Or.inr hx
      · exact Or.inl (List.mem_cons_of_mem _ hx)
    · rw [show upsert (kv :: rest) k v = kv :: upsert rest k v by simp [upsert, h]] at hx
      rcases List.mem_cons.mp hx with hx | hx
      · exact Or.inl (by simp [hx])
      · rcases ih x hx with hy | hy
        · exact Or.inl (List.mem_cons_of_mem _ hy)
        · exact Or.inr hy

theorem mem_updateAssoc {α : Type} (m : List (String × α)) (k : String) (f : α → α) :
    ∀ x ∈ updateAssoc m k f, x ∈ m ∨ ∃ y ∈ m, x = (y.1, f y.2) := by
  induction m with
  | nil =>
    intro x hx
    simp [updateAssoc] at hx
  | cons kv rest ih =>
    intro x hx
    by_cases h : kv.1 = k
    · rw [show updateAssoc (kv :: rest) k f = (kv.1, f kv.2) :: rest by
        simp [updateAssoc, h]] at hx
      rcases List.mem_cons.mp hx with hx | hx
      · exact Or.inr ⟨kv, List.mem_cons_self _ _, hx⟩
      · exact Or.inl (List.mem_cons_of_mem _ hx)
    · rw [show updateAssoc (kv :: rest) k f = kv :: updateAssoc rest k f by
        simp [updateAssoc, h]] at hx
      rcases List.mem_cons.mp hx with hx | hx
      · exact Or.inl (by simp [hx])
      · rcases ih x hx with hy | hy
        · exact Or.inl (List.mem_cons_of_mem _ hy)
        · rcases hy with ⟨y, hym, hyx⟩
          exact Or.inr ⟨y, List.mem_cons_of_mem _ hym, hyx⟩

theorem substituteSegs_eq_spec (parts : List String) (args : List String) (idx : Nat) :
    substituteSegs parts args idx = specSubstitute parts (args.drop idx) := by
  induction parts generalizing idx with
  | nil => rfl
  | cons part rest ih =>
    by_cases h : headIsColon part = true
    · have hhead : (args.drop idx).headD ("") = args.getD idx ("") := by
        simp [List.headD_eq_head?, List.head?_drop, List.getD]
      have htail : (args.drop idx).drop 1 = args.drop (idx + 1) := by
        rw [List.drop_drop, Nat.add_comm]
      simp [substituteSegs, specSubstitute, h, hhead, htail, ih]
    · simp [substituteSegs, specSubstitute, h, ih]

theorem wrapFold_idle (fuel : Nat) (l : List Entry) (args : List String) (trig : Bool) :
    ∀ (acc : RouterState × List Event × Bool), acc.2.2 = true →
    (l.foldl (fun acc e =>
        if acc.2.2 then acc
        else
          let r := runWrapper fuel acc.1 e args trig
          (r.1, acc.2.1 ++ r.2.1, r.2.2)) acc) = acc := by
  induction l with
  | nil =>
    intro acc _
    rfl
  | cons e rest ih =>
    intro acc hacc
    simp only [List.foldl_cons, hacc, if_true]
    exact ih acc hacc

theorem wrapFold_eq (fuel : Nat) (l : List Entry) (args : List String) (trig : Bool) :
    ∀ (st : RouterState) (evs0 : List Event),
    (l.foldl (fun acc e =>
        if acc.2.2 then acc
        else
          let r := runWrapper fuel acc.1 e args trig
          (r.1, acc.2.1 ++ r.2.1, r.2.2)) (st, evs0, false)) =
      ((l.foldl (fun acc e =>
        if acc.2.2 then acc
        else
          let r := runWrapper fuel acc.1 e args trig
          (r.1, acc.2.1 ++ r.2.1, r.2.2)) (st, [], false)).1,
       evs0 ++ (l.foldl (fun acc e =>
        if acc.2.2 then acc
        else
          let r := runWrapper fuel acc.1 e args trig
          (r.1, acc.2.1 ++ r.2.1, r.2.2)) (st, [], false)).2.1,
       (l.foldl (fun acc e =>
        if acc.2.2 then acc
        else
          let r := runWrapper fuel acc.1 e args trig
          (r.1, acc.2.1 ++ r.2.1, r.2.2)) (st, [], false)).2.2) := by
  induction l with
  | nil =>
    intro st evs0
    simp
  | cons e rest ih =>
    intro st evs0
    simp only [List.foldl_cons]
    rcases h : runWrapper fuel st e args trig with ⟨s1, e1, b1⟩
    simp only [h]
    cases b1 with
    | false =>
      simp only [Bool.false_eq_true, if_false]
      rw [ih s1 (evs0 ++ e1), ih s1 ([] ++ e1)]
      simp
    | true =>
      simp only [Bool.false_eq_true, if_false]
      rw [wrapFold_idle fuel rest args trig (s1, evs0 ++ e1, true) rfl,
        wrapFold_idle fuel rest args trig (s1, [] ++ e1, true) rfl]
      simp

theorem processControllers_trace_head (fuel : Nat) (st : RouterState) (name : String)
    (a : Option (List String)) (t : Bool) :
    ∃ tail, (processControllers fuel st name a t).2.1 =
      Event.ctrl name (a.getD []) t :: tail := by
  cases fuel with
  | zero => exact ⟨[], rfl⟩
  | succ f =>
    simp only [processControllers]
    cases h : lookup' st.extendedController name with
    | none =>
      simp only [h]
      exact ⟨[], rfl⟩
    | some c =>
      simp only [h]
      rw [wrapFold_eq f c.wrappers (a.getD []) t st [Event.ctrl name (a.getD []) t]]
      exact ⟨_, rfl⟩

theorem guardFold_flag (st : RouterState) (name : Option String)
    (args : Option (List String)) (options : Option NavOpts) (l : List String) :
    ∀ (acc : Bool × List Event),
    (l.foldl (guardStep st name args options) acc).1 =
      (match (l.filter (fun r =>
          (lookup' st.closeControllers r).isSome && name != some r)).getLast? with
      | some r => guardValue st name args options r
      | none => acc.1) := by
  induction l with
  | nil =>
    intro acc
    rfl
  | cons x rest ih =>
    intro acc
    simp only [List.foldl_cons, List.filter_cons]
    cases hl : lookup' st.closeControllers x with
    | none =>
      simp only [guardStep, hl, Option.isSome_none, Bool.false_and, if_neg]
      rw [ih acc]
      simp
    | some g =>
      cases hn : (name != some x) with
      | false =>
        have : guardStep st name args options acc x = acc := by
          simp [guardStep, hl, hn]
        rw [this, ih acc]
        simp [hl, hn]
      | true =>
        have hstep : guardStep st name args options acc x =
            (g name args options, acc.2 ++ [Event.closeGuard x (g name args options)]) := by
          simp [guardStep, hl, hn]
        rw [hstep, ih]
        simp only [Option.isSome_some, Bool.true_and, Bool.and_true, if_true]
        cases hfr : rest.filter (fun r =>
            (lookup' st.closeControllers r).isSome && name != some r) with
        | nil => simp [hfr, guardValue, hl]
        | cons y t =>
          cases hgl : (y :: t).getLast? with
          | none => simp [List.getLast?_cons] at hgl
          | some r => simp [List.getLast?_cons_cons, hgl]

theorem guardFold_events_only (st : RouterState) (name : Option String)
    (args : Option (List String)) (options : Option NavOpts) (l : List String) :
    ∀ (acc : Bool × List Event),
    ∀ e ∈ (l.foldl (guardStep st name args options) acc).2,
      e ∈ acc.2 ∨ ∃ r res, e = Event.closeGuard r res := by
  induction l with
  | nil =>
    intro acc e he
    exact Or.inl he
  | cons x rest ih =>
    intro acc e he
    simp only [List.foldl_cons] at he
    cases hl : lookup' st.closeControllers x with
    | none =>
      rw [show guardStep st name args options acc x = acc by simp [guardStep, hl]] at he
      exact ih acc e he
    | some g =>
      cases hn : (name != some x) with
      | false =>
        rw [show guardStep st name args options acc x = acc by simp [guardStep, hl, hn]] at he
        exact ih acc e he
      | true =>
        rw [show guardStep st name args options acc x =
            (g name args options, acc.2 ++ [Event.closeGuard x (g name args options)]) by
          simp [guardStep, hl, hn]] at he
        rcases ih _ e he with hmem | hcg
        · rcases List.mem_append.mp hmem with hmem | hmem
          · exact Or.inl hmem
          · exact Or.inr ⟨x, g name args options, by simpa using hmem⟩
        · exact Or.inr hcg

/-- C8: `parse(template, args)` splits the template on `/`, substitutes
each segment beginning with `:` by the next unused element of `args`
consumed left to right, and passes non-parameter segments through
unchanged; in particular `parse("/user/:id/edit", ["42"])` yields
`"/user/42/edit"` and `parse("/home", [])` yields `"/home"` unchanged.
The general rule is stated against `specParse`, the verbatim
split/substitute/join function written from the spec's words, and holds
for every non-empty argument array (for an empty one the source returns
the template unchanged, as the second example requires). -/
theorem parse_matches_spec :
    (∀ t a, a ≠ [] → parse t a = specParse t a) ∧
    parse ("/user/:id/edit") [("42")] = ("/user/42/edit") ∧
    parse ("/home") [] = ("/home") := by
  refine ⟨?_, by decide, by decide⟩
  intro t a ha
  have hne : a.isEmpty = false := by
    cases a with
    | nil => exact absurd rfl ha
    | cons x xs => rfl
  rw [parse, if_neg (by simp [hne]), specParse]
  rw [show substituteSegs (jsSplitSlash t) a 0 = specSubstitute (jsSplitSlash t) (a.drop 0) from
    substituteSegs_eq_spec (jsSplitSlash t) a 0]
  rfl

/-- Witness for C8 at a concrete input with a hypothesis-free check. -/
theorem parse_matches_spec_witness :
    parse ("/u/:a/:b") [("1"), ("2")] = specParse ("/u/:a/:b") [("1"), ("2")] :=
  parse_matches_spec.1 ("/u/:a/:b") [("1"), ("2")] (by decide)

/-- C10: a `go` call from which neither a route name nor a path can be
extracted (a falsy name and, for an object, a falsy name and falsy
path) returns false immediately: the state is unchanged, no event is
produced (so no 404 dispatch, no close guard runs, no navigation), and
the return value is the literal `false`.  The `optionsSet` hypothesis
pins the started router the claim describes: the branch's first
statement is a `this.options.log` call (line 420), so on a never
started router it would throw instead (see the C9 correction). -/
theorem go_missing_params_noop (fuel : Nat) (st : RouterState) (o : GoObj)
    (args0 : Option (List String)) (options : Option NavOpts)
    (hopts : st.optionsSet = true)
    (hn : truthyOpt o.name = false) (hp : truthyOpt (o.path.map stripSlash) = false) :
    go fuel st (.obj o) args0 options = (st, [], .ret (some false)) ∧
    go fuel st (.str ("")) args0 options = (st, [], .ret (some false)) := by
  constructor
  · simp [go, hn, hp, hopts]
  · have h : truthyOpt (some ("")) = false := by decide
    simp [go, h, truthyOpt, hopts]

/-- Witness for C10 at a concrete no-name, no-path object. -/
theorem go_missing_params_noop_witness :
    go 5 (initState {} {}) (.obj {}) none none = (initState {} {}, [], .ret (some false)) :=
  (go_missing_params_noop 5 (initState {} {}) {} none none rfl (by decide) (by decide)).1

/-- C1 counterexample: with `currentRoutes = ["a", "b"]`, the close
guard of `a` returns false during `go("c")`, yet because the loop
overwrites the shared continue flag and `b`'s guard later returns true,
the navigation is NOT aborted: both guards run, `navigate` is handed to
the history facility, `go` returns true and `currentRoutes` is reset.
This refutes the claim that one vetoing guard aborts the navigation. -/
theorem go_one_false_guard_does_not_abort :
    cexStCur.currentRoutes = [("a"), ("b")] ∧
    lookup' cexStCur.closeControllers ("a") = some cexGuardFalse ∧
    cexGuardFalse (some ("c")) none none = false ∧
    (go 9 cexStCur (.str ("c")) none none).2.1 =
      [Event.closeGuard ("a") false, Event.closeGuard ("b") true,
       Event.navigate ("c") true false] ∧
    (go 9 cexStCur (.str ("c")) none none).2.2 = .ret (some true) ∧
    (go 9 cexStCur (.str ("c")) none none).1.currentRoutes = [] :=
  ⟨by decide, rfl, rfl, by decide, by decide, by decide⟩

/-- C1 (amended): a navigation is aborted by the close-guard phase
exactly when the flag left by the loop is false, i.e. when the LAST
relevant guard (registered close controller, route name differing from
the target) returns false; in that case `go` returns false, the state
(in particular `CurrentRouteStack`) is untouched, only the close-guard
invocations are observable, and no `navigate` reaches the history
facility. -/
theorem go_last_close_guard_veto_aborts (fuel : Nat) (st : RouterState) (s : String)
    (args0 : Option (List String)) (options : Option NavOpts) (r : String) (g : Guard)
    (hs : truthyOpt (some s) = true)
    (hex : routeExists st { name := some s } = true)
    (hlast : (relevantGuardRoutes st (some s)).getLast? = some r)
    (hg : lookup' st.closeControllers r = some g)
    (hveto : g (some s) args0 options = false) :
    go fuel st (.str s) args0 options =
      (st, (runCloseGuards st (some s) args0 options).2, .ret (some false)) ∧
    ∀ p b1 b2, Event.navigate p b1 b2 ∉ (runCloseGuards st (some s) args0 options).2 := by
  have hflag : (runCloseGuards st (some s) args0 options).1 = false := by
    rw [runCloseGuards, guardFold_flag]
    rw [show st.currentRoutes.filter (fun r =>
        (lookup' st.closeControllers r).isSome && (some s : Option String) != some r) =
      relevantGuardRoutes st (some s) from rfl]
    rw [hlast]
    simp [guardValue, hg, hveto]
  constructor
  · simp only [go, hs, hex]
    rcases hrc : runCloseGuards st (some s) args0 options with ⟨cp, gevs⟩
    rw [hrc] at hflag
    simp only at hflag
    subst hflag
    simp [truthyOpt]
  · intro p b1 b2 hmem
    rcases guardFold_events_only st (some s) args0 options st.currentRoutes
        (true, []) _ hmem with h0 | ⟨r0, res0, hcg⟩
    · simp at h0
    · exact Event.noConfusion hcg

/-- Witness for the amended C1: with `currentRoutes = ["a"]` and `a`'s
guard vetoing, `go("c")` aborts with state untouched. -/
theorem go_last_close_guard_veto_aborts_witness :
    go 9 cexStCurA (.str ("c")) none none =
      (cexStCurA, (runCloseGuards cexStCurA (some ("c")) none none).2, .ret (some false)) :=
  (go_last_close_guard_veto_aborts 9 cexStCurA ("c") none none ("a") cexGuardFalse
    (by decide) (by decide) (by decide) rfl rfl).1

/-- C2 evaluated at the failing input: `go("nope")` with `nope`
unregistered dispatches the `404` chain exactly once with the current
raw path (`"nope"`) as sole argument and does not throw, but its return
value is `undefined` (`none`), not the value `false` promised by the
claim and by the source's own `@return {Boolean}` doc comment — the 404
branch of `go` falls off the end of the function. -/
theorem go_unknown_name_returns_undefined :
    routeExists cexSt404 { name := some ("nope") } = false ∧
    (go 9 cexSt404 (.str ("nope")) none none).2.1 =
      [Event.ctrl ("404") [("nope")] false, Event.action ("a404") [("nope")]] ∧
    countCtrl ("404") (go 9 cexSt404 (.str ("nope")) none none).2.1 = 1 ∧
    (go 9 cexSt404 (.str ("nope")) none none).2.2 = .ret none ∧
    (go 9 cexSt404 (.str ("nope")) none none).2.2 ≠ .ret (some false) ∧
    (go 9 cexSt404 (.str ("nope")) none none).2.2 ≠ .thrown := by
  refine ⟨by decide, by decide, by decide, by decide, by decide, by decide⟩

theorem markCache_extC (st : RouterState) (n : String) (a : Option (List String)) :
    (markCache st n a).extendedController = st.extendedController := by
  simp only [markCache, findCachedTrigger]
  cases st.cachedTriggers.find? (fun r => r.name == n) <;> rfl

/-- C3 (amended): in `processTrigger` the cache check precedes the
route check.  A cache-marked trigger whose cached record is already
done is skipped entirely (fourth conjunct — no chain dispatch, no
external dispatch, no state change).  Otherwise — for a string trigger,
an uncached object trigger, or a cache-marked one whose record is not
yet done (which gets created/marked done) — a trigger naming an
existing route dispatches that route's chain directly, marked
trigger-originated so nothing is pushed onto `currentRoutes` (the
resulting state differs at most in the cache bookkeeping), and
processing stops with no dispatch to the external event dispatcher. -/
theorem processTrigger_route_after_cache_check (fuel : Nat) (st : RouterState)
    (n cn : String) (p0 : Option String) (aid : String) (re0 : Option (String → Bool))
    (hn : truthyOpt (some n) = true)
    (hchain : lookup' st.extendedController n =
      some ⟨re0, [⟨cn, { path := p0, action := .fn aid }⟩]⟩) :
    (processTrigger (fuel + 3) st (.str n) =
      (st, [Event.ctrl n [] true, Event.action aid []], false)) ∧
    (∀ targs, processTrigger (fuel + 3) st (.obj n targs false) =
      (st, [Event.ctrl n (targs.getD []) true, Event.action aid (targs.getD [])], false)) ∧
    (∀ targs, doneFor st n = false →
      processTrigger (fuel + 3) st (.obj n targs true) =
        (markCache st n targs,
         [Event.ctrl n (targs.getD []) true, Event.action aid (targs.getD [])], false)) ∧
    (∀ targs, doneFor st n = true →
      processTrigger (fuel + 3) st (.obj n targs true) = (st, [], false)) := by
  have hpc : ∀ (st' : RouterState) (o : Option (List String)),
      lookup' st'.extendedController n =
        some ⟨re0, [⟨cn, { path := p0, action := .fn aid }⟩]⟩ →
      processControllers (fuel + 2) st' n o true =
        (st', [Event.ctrl n (o.getD []) true, Event.action aid (o.getD [])], false) := by
    intro st' o h
    simp only [processControllers, h]
    simp [runWrapper]
  have hex : routeExists st { name := some n } = true := by
    simp [routeExists, hn, hchain]
  refine ⟨?_, ?_, ?_, ?_⟩
  · have h1 : processTrigger (fuel + 3) st (.str n) =
        processControllers (fuel + 2) st n none true := by
      simp [processTrigger, hex]
    rw [h1]
    exact hpc st none hchain
  · intro targs
    have h2 : processTrigger (fuel + 3) st (.obj n targs false) =
        processControllers (fuel + 2) st n targs true := by
      simp [processTrigger, hex]
    rw [h2]
    exact hpc st targs hchain
  · intro targs hdone
    cases hfind : st.cachedTriggers.find? (fun r => r.name == n) with
    | none =>
      have hstep : processTrigger (fuel + 3) st (.obj n targs true) =
          processControllers (fuel + 2) (markCache st n targs) n targs true := by
        simp [processTrigger, findCachedTrigger, hfind, markCache, routeExists, hn, hchain]
      rw [hstep]
      exact hpc _ targs (by rw [markCache_extC]; exact hchain)
    | some r0 =>
      have hr0 : r0.done = false := by simpa [doneFor, hfind] using hdone
      have hstep : processTrigger (fuel + 3) st (.obj n targs true) =
          processControllers (fuel + 2) (markCache st n targs) n targs true := by
        simp [processTrigger, findCachedTrigger, hfind, hr0, markCache, routeExists, hn, hchain]
      rw [hstep]
      exact hpc _ targs (by rw [markCache_extC]; exact hchain)
  · intro targs hdone
    cases hfind : st.cachedTriggers.find? (fun r => r.name == n) with
    | none => simp [doneFor, hfind] at hdone
    | some r0 =>
      have hr0 : r0.done = true := by simpa [doneFor, hfind] using hdone
      simp [processTrigger, findCachedTrigger, hfind, hr0]

/-- Witness for the amended C3: the cache-marked route-named trigger,
processed from a state with no done record, marks the cache and
dispatches the chain. -/
theorem processTrigger_route_after_cache_check_witness :
    processTrigger 3 cexStR (.obj ("r") (some []) true) =
      (markCache cexStR ("r") (some []),
       [Event.ctrl ("r") [] true, Event.action ("fr") []], false) :=
  (processTrigger_route_after_cache_check 0 cexStR ("r") ("r") (some ("r")) ("fr") none
    (by decide) rfl).2.2.1 (some []) (by decide)

/-- C3 counterexample: `r` is a registered route and `cexTrigR` is a
cache-marked trigger named `r`.  The first `processTrigger` dispatches
`r`'s chain (and marks the cache record done); the second one — the
cache record now being `done` — is skipped entirely, producing no
events at all and in particular not dispatching `r`'s chain.  This
refutes the claimed ordering (route check before cache check). -/
theorem processTrigger_done_cache_skips_route :
    routeExists cexStR { name := some ("r") } = true ∧
    (processTrigger 9 cexStR cexTrigR).2.1 =
      [Event.ctrl ("r") [] true, Event.action ("fr") []] ∧
    (processTrigger 9 (processTrigger 9 cexStR cexTrigR).1 cexTrigR).2.1 = [] ∧
    countCtrl ("r") (processTrigger 9 (processTrigger 9 cexStR cexTrigR).1 cexTrigR).2.1 = 0 := by
  refine ⟨by decide, by decide, by decide, by decide⟩

/-- C4: invoking a handler-chain entry whose definition requires
`authed = true` while the session is logged out never reaches the
entry's action or its before/after triggers: when redirect-to-login is
off, it dispatches the `403` route exactly once with the current raw
path (the explicit trace shows the single `403` invocation and nothing
of the entry's own work); when redirect-to-login is on it stores the
current route and dispatches `login` exactly once; and the gate failure
short-circuits the entry — the result does not depend on the entry's
before triggers, action, or after triggers at all (third conjunct). -/
theorem authed_gate_short_circuits (fuel : Nat) (st : RouterState) (cn : String)
    (d : RouteDef) (args : List String) (trig : Bool)
    (hauth : d.authed = some true) (hses : st.options.authed = false) :
    (st.options.redirectToLogin = false →
      ∀ re0 cn403 p403 a403,
        lookup' st.extendedController ("403") =
          some ⟨re0, [⟨cn403, { path := p403, action := .fn a403 }⟩]⟩ →
        runWrapper (fuel + 3) st ⟨cn, d⟩ args trig =
          ({ st with currentRoutes :=
              ((if trig then st.currentRoutes else st.currentRoutes ++ [cn]) ++ [cn403]) },
           [Event.ctrl ("403") [rawPath st] false, Event.action a403 [rawPath st]],
           false)) ∧
    (st.options.redirectToLogin = true →
      ∀ reL cnL pL aL,
        lookup' st.extendedController ("login") =
          some ⟨reL, [⟨cnL, { path := pL, action := .fn aL }⟩]⟩ →
        runWrapper (fuel + 3) st ⟨cn, d⟩ args trig =
          ({ st with currentRoutes :=
              ((if trig then st.currentRoutes else st.currentRoutes ++ [cn]) ++ [cnL]) },
           [Event.storeRoute (rawPath st), Event.ctrl ("login") [] false,
            Event.action aL []],
           false)) ∧
    (∀ bs as2 act,
      runWrapper (fuel + 3) st ⟨cn, { d with before := bs, action := act, after := as2 }⟩
          args trig =
        runWrapper (fuel + 3) st ⟨cn, d⟩ args trig) := by
  refine ⟨?_, ?_, ?_⟩
  · intro hrl re0 cn403 p403 a403 h403
    cases trig <;>
      simp [runWrapper, hauth, hses, hrl, processControllers, h403, rawPath]
  · intro hrl reL cnL pL aL hlogin
    cases trig <;>
      simp [runWrapper, hauth, hses, hrl, processControllers, hlogin, rawPath]
  · intro bs as2 act
    cases trig <;> simp [runWrapper, hauth, hses]

/-- Witness for C4: the secured route `adm` of `cexStAuth`, invoked
while logged out with redirect-to-login off, dispatches only `403`. -/
theorem authed_gate_short_circuits_witness :
    runWrapper 3 cexStAuth
        ⟨("adm"), { path := some ("admin"), authed := some true, action := .fn ("fadm") }⟩
        [] false =
      ({ cexStAuth with currentRoutes :=
          ((if false then cexStAuth.currentRoutes
            else cexStAuth.currentRoutes ++ [("adm")]) ++ [("403")]) },
       [Event.ctrl ("403") [rawPath cexStAuth] false,
        Event.action ("a403") [rawPath cexStAuth]],
       false) :=
  (authed_gate_short_circuits 0 cexStAuth ("adm")
    { path := some ("admin"), authed := some true, action := .fn ("fadm") }
    [] false rfl rfl).1 rfl none ("403") (some ("err")) ("a403") rfl

/-- C6: a handler-chain entry whose action is a route name (an alias)
that passes its own auth gate delegates entirely to the target route's
full handler chain — a `processControllers` call on the target, marked
trigger-originated — and the whole result is independent of the alias's
own before/after triggers (second conjunct), which are therefore never
processed; nothing else of the alias's runs after the delegation.
Because the delegation is a full chain invocation, the target's own
auth gate applies (see the witness, whose target is a secured route
that 403s). -/
theorem alias_delegates_fully (fuel : Nat) (st : RouterState) (cn tgt : String)
    (d : RouteDef) (args : List String) (trig : Bool)
    (halias : d.action = .aliasTo tgt)
    (hgate : d.authed = none ∨ d.authed = some st.options.authed) :
    runWrapper (fuel + 1) st ⟨cn, d⟩ args trig =
      processControllers fuel
        (if trig then st else { st with currentRoutes := st.currentRoutes ++ [cn] })
        tgt (some args) true ∧
    ∀ bs as2, runWrapper (fuel + 1) st ⟨cn, { d with before := bs, after := as2 }⟩
        args trig =
      runWrapper (fuel + 1) st ⟨cn, d⟩ args trig := by
  rcases hgate with hA | hA
  · constructor
    · cases trig <;> simp [runWrapper, halias, hA]
    · intro bs as2
      cases trig <;> simp [runWrapper, halias, hA]
  · constructor
    · cases trig <;> cases hsa : st.options.authed <;>
        simp [runWrapper, halias, hA, hsa]
    · intro bs as2
      cases trig <;> cases hsa : st.options.authed <;>
        simp [runWrapper, halias, hA, hsa]

/-- Witness for C6: the alias `al` of `cexStAl` (which carries its own
before/after triggers) delegates to the secured target `sec`. -/
theorem alias_delegates_fully_witness :
    runWrapper 9 cexStAl
        ⟨("al"), { path := some ("al"), action := .aliasTo ("sec"),
                   before := [.str ("x")], after := [.str ("y")] }⟩ [] false =
      processControllers 8
        (if false then cexStAl
         else { cexStAl with currentRoutes := cexStAl.currentRoutes ++ [("al")] })
        ("sec") (some []) true :=
  (alias_delegates_fully 8 cexStAl ("al") ("sec")
    { path := some ("al"), action := .aliasTo ("sec"),
      before := [.str ("x")], after := [.str ("y")] } [] false rfl (Or.inl rfl)).1

theorem find?_append_none {α : Type} {p : α → Bool} {l1 : List α} (l2 : List α)
    (h : l1.find? p = none) : (l1 ++ l2).find? p = l2.find? p := by
  induction l1 with
  | nil => rfl
  | cons x rest ih =>
    by_cases hx : p x = true
    · rw [List.find?_cons_of_pos _ hx] at h
      exact absurd h (by simp)
    · rw [List.find?_cons_of_neg _ hx] at h
      rw [List.cons_append, List.find?_cons_of_neg _ hx]
      exact ih h

theorem find?_setDone_self (l : List CacheRec) (n : String) :
    (setDone l n).find? (fun r => r.name == n) =
      (l.find? (fun r => r.name == n)).map (fun r => { r with done := true }) := by
  induction l with
  | nil => rfl
  | cons r rest ih =>
    by_cases h : r.name = n
    · have hb : (r.name == n) = true := beq_iff_eq.mpr h
      simp [setDone, hb, List.find?_cons]
    · have hb : (r.name == n) = false := beq_eq_false_iff_ne.mpr h
      simp [setDone, hb, List.find?_cons, ih]

theorem doneFor_markCache (st : RouterState) (n : String) (a : Option (List String)) :
    doneFor (markCache st n a) n = true := by
  simp only [markCache, findCachedTrigger]
  cases hfind : st.cachedTriggers.find? (fun r => r.name == n) with
  | some r0 =>
    simp only [doneFor, find?_setDone_self, hfind]
    rfl
  | none =>
    simp only [doneFor, find?_setDone_self]
    rw [find?_append_none _ hfind]
    simp [List.find?_cons]

theorem routeExists_name_congr (st' st : RouterState) (p : ExistsParams)
    (h : st'.extendedController = st.extendedController) :
    routeExists st' p = routeExists st p := by
  simp [routeExists, h]

theorem processTrigger_cached_nonroute (fuel : Nat) (st : RouterState) (n : String)
    (a : Option (List String))
    (hroute : routeExists st { name := some n } = false) :
    processTrigger (fuel + 1) st (.obj n a true) =
      (if doneFor st n = true then (st, [], false)
       else (markCache st n a,
         [Event.dispatch n (match a with | none => [none] | some l => l.map some)],
         false)) := by
  cases hfind : st.cachedTriggers.find? (fun r => r.name == n) with
  | none =>
    have hdf : doneFor st n = false := by simp [doneFor, hfind]
    have hmc : markCache st n a =
        { st with cachedTriggers := (setDone (st.cachedTriggers ++
            [{ name := n, args := a, cache := true, done := false }]) n) } := by
      simp [markCache, findCachedTrigger, hfind]
    have hex' : routeExists
        { st with cachedTriggers := (setDone (st.cachedTriggers ++
            [{ name := n, args := a, cache := true, done := false }]) n) }
        { name := some n } = false := hroute
    rw [if_neg (by simp [hdf])]
    simp [processTrigger, findCachedTrigger, hfind, hex', hmc]
  | some r0 =>
    cases hr0d : r0.done with
    | true =>
      have hdf : doneFor st n = true := by simp [doneFor, hfind, hr0d]
      rw [if_pos hdf]
      simp [processTrigger, findCachedTrigger, hfind, hr0d]
    | false =>
      have hdf : doneFor st n = false := by simp [doneFor, hfind, hr0d]
      have hmc : markCache st n a =
          { st with cachedTriggers := setDone st.cachedTriggers n } := by
        simp [markCache, findCachedTrigger, hfind]
      have hex' : routeExists { st with cachedTriggers := setDone st.cachedTriggers n }
          { name := some n } = false := hroute
      rw [if_neg (by simp [hdf])]
      simp [processTrigger, findCachedTrigger, hfind, hr0d, hex', hmc]

theorem processSeq_cached_skips_when_done (fuel : Nat) (n : String) :
    ∀ (ts : List Trigger) (st : RouterState),
    (∀ t ∈ ts, ∃ a, t = Trigger.obj n a true) →
    routeExists st { name := some n } = false →
    doneFor st n = true →
    processSeq (fuel + 1) st ts = (st, []) := by
  intro ts
  induction ts with
  | nil => intro st _ _ _; rfl
  | cons t rest ih =>
    intro st hall hroute hdone
    rcases hall t (List.mem_cons_self _ _) with ⟨a, rfl⟩
    simp only [processSeq]
    rw [processTrigger_cached_nonroute fuel st n a hroute, if_pos hdone]
    rw [ih st (fun t ht => hall t (List.mem_cons_of_mem _ ht)) hroute hdone]
    rfl

theorem processSeq_cached_count (fuel : Nat) (n : String) :
    ∀ (ts : List Trigger) (st : RouterState),
    (∀ t ∈ ts, ∃ a, t = Trigger.obj n a true) →
    routeExists st { name := some n } = false →
    countDispatch n (processSeq (fuel + 1) st ts).2 ≤ 1 ∧
    (processSeq (fuel + 1) st ts).1.extendedController = st.extendedController := by
  intro ts
  induction ts with
  | nil => intro st _ _; simp [processSeq, countDispatch]
  | cons t rest ih =>
    intro st hall hroute
    rcases hall t (List.mem_cons_self _ _) with ⟨a, rfl⟩
    by_cases hdone : doneFor st n = true
    · rw [processSeq_cached_skips_when_done fuel n (Trigger.obj n a true :: rest) st hall
        hroute hdone]
      simp [countDispatch]
    · have hroute' : routeExists (markCache st n a) { name := some n } = false := by
        rw [routeExists_name_congr _ st _ (markCache_extC st n a)]
        exact hroute
      have hrest : processSeq (fuel + 1) (markCache st n a) rest = (markCache st n a, []) :=
        processSeq_cached_skips_when_done fuel n rest (markCache st n a)
          (fun t ht => hall t (List.mem_cons_of_mem _ ht)) hroute'
          (doneFor_markCache st n a)
      simp only [processSeq]
      rw [processTrigger_cached_nonroute fuel st n a hroute, if_neg hdone]
      rw [hrest]
      refine ⟨by simp [countDispatch, isDispatchOf], ?_⟩
      simp [markCache_extC]

/-- C5: across any number of `processTrigger` calls on cache-marked
triggers of a fixed name `n` (where `n` is not a registered route), the
external event dispatcher receives `n` at most once; and after
`clearCache()` the same holds again for a further run of such calls, so
the trigger may fire exactly once more.  The per-call fuel is
irrelevant: these triggers never recurse into the controller chain. -/
theorem cached_trigger_fires_at_most_once (fuel : Nat) (st : RouterState) (n : String)
    (ts ts' : List Trigger)
    (hall : ∀ t ∈ ts, ∃ a, t = Trigger.obj n a true)
    (hall' : ∀ t ∈ ts', ∃ a, t = Trigger.obj n a true)
    (hroute : routeExists st { name := some n } = false) :
    countDispatch n (processSeq (fuel + 1) st ts).2 ≤ 1 ∧
    countDispatch n
      (processSeq (fuel + 1) (clearCache (processSeq (fuel + 1) st ts).1) ts').2 ≤ 1 := by
  refine ⟨(processSeq_cached_count fuel n ts st hall hroute).1, ?_⟩
  refine (processSeq_cached_count fuel n ts' _ hall' ?_).1
  rw [routeExists_name_congr _ st]
  · exact hroute
  · rw [show (clearCache (processSeq (fuel + 1) st ts).1).extendedController =
        (processSeq (fuel + 1) st ts).1.extendedController from rfl]
    exact (processSeq_cached_count fuel n ts st hall hroute).2

/-- Witness for C5: two cache-marked `ev` triggers, then a cache clear,
then one more. -/
theorem cached_trigger_fires_at_most_once_witness :
    countDispatch ("ev") (processSeq 1 (initState {} cexLoc) [cexTrigE, cexTrigE]).2 ≤ 1 ∧
    countDispatch ("ev")
      (processSeq 1 (clearCache (processSeq 1 (initState {} cexLoc)
        [cexTrigE, cexTrigE]).1) [cexTrigE]).2 ≤ 1 :=
  cached_trigger_fires_at_most_once 0 (initState {} cexLoc) ("ev")
    [cexTrigE, cexTrigE] [cexTrigE]
    (by intro t ht; fin_cases ht <;> exact ⟨some [("1")], rfl⟩)
    (by intro t ht; fin_cases ht; exact ⟨some [("1")], rfl⟩)
    (by decide)

/-- C7 counterexample: two `route` calls with distinct names and the
identical path template, where the first name is the empty string.
The source's owner check `if (routes[def.path])` (line 282) is a JS
truthiness test, so the falsy owner name makes the second registration
take the fresh branch: the path binding is REBOUND to the second name
and the shared-path name list is reset to hold only the second name —
the second entry is not appended to the first chain.  This refutes the
claim's unconditional "the path stays bound to the first name and is
never rebound". -/
theorem shared_path_falsy_owner_rebinds :
    ("" : String) ≠ ("n2") ∧
    lookup' cexStFalsy1.routes ("p") = some ("") ∧
    lookup' cexStFalsy2.routes ("p") = some ("n2") ∧
    lookup' cexStFalsy2.extendedRoutes ("p") = some [("n2")] ∧
    (lookup' cexStFalsy2.extendedController ("n2")).map
      (fun c => c.wrappers.map (fun e => e.currentName)) = some [("n2")] := by
  refine ⟨by decide, by decide, by decide, by decide, by decide⟩

/-- C7 (amended): registering two distinct names against the identical path
template keeps the path bound to the first (owning) name — the
`routes` binding is never rebound — while the second registration
appends its handler-chain entry to the owning chain (whose wrapper list
ends up holding both entries in registration order) and also creates a
standalone matcher-less chain under the second name; dispatching the
owning chain (which is what a path-match navigation does) executes both
entries, in registration order.  The first name must be truthy
(non-empty): the source's owner check `if (routes[def.path])` is a
truthiness test, so a falsy owner name would send the second
registration down the fresh branch, rebinding the path instead of
appending. -/
theorem shared_path_appends_to_owner_chain (fuel : Nat) (st : RouterState)
    (n1 n2 p a1 a2 : String) (args : List String)
    (hne : n1 ≠ n2)
    (hn1 : truthyOpt (some n1) = true)
    (hfresh : lookup' st.routes (stripSlash p) = none) :
    lookup' (route (route st n1 (simpleDef p a1)) n2 (simpleDef p a2)).routes
        (stripSlash p) = some n1 ∧
    lookup' (route (route st n1 (simpleDef p a1)) n2 (simpleDef p a2)).extendedController
        n1 = some ⟨none, [simpleEntry n1 (stripSlash p) a1,
                          simpleEntry n2 (stripSlash p) a2]⟩ ∧
    lookup' (route (route st n1 (simpleDef p a1)) n2 (simpleDef p a2)).extendedController
        n2 = some ⟨none, [simpleEntry n2 (stripSlash p) a2]⟩ ∧
    processControllers (fuel + 2)
        (route (route st n1 (simpleDef p a1)) n2 (simpleDef p a2)) n1 (some args) false =
      ({ (route (route st n1 (simpleDef p a1)) n2 (simpleDef p a2)) with
          currentRoutes :=
            (route (route st n1 (simpleDef p a1)) n2 (simpleDef p a2)).currentRoutes ++
              [n1, n2] },
       [Event.ctrl n1 args false, Event.action a1 args, Event.action a2 args],
       false) := by
  have hst1 : route st n1 (simpleDef p a1) = { st with
      routes := upsert st.routes (stripSlash p) n1,
      extendedRoutes := (updateAssoc (upsert st.extendedRoutes (stripSlash p) [])
        (stripSlash p) (fun l => l ++ [n1])),
      extendedController := (updateAssoc (upsert st.extendedController n1 ⟨none, []⟩)
        n1 (fun c => { c with wrappers :=
          c.wrappers ++ [simpleEntry n1 (stripSlash p) a1] })) } := by
    simp [route, simpleDef, simpleEntry, hfresh, pathKey]
  have hlook1 : lookup' (upsert st.routes (stripSlash p) n1) (stripSlash p) = some n1 :=
    lookup'_upsert_self st.routes (stripSlash p) n1
  have hb12 : (n1 != n2) = true := bne_iff_ne.mpr hne
  have hst2 : route (route st n1 (simpleDef p a1)) n2 (simpleDef p a2) = { st with
      routes := upsert st.routes (stripSlash p) n1,
      extendedRoutes := (updateAssoc (updateAssoc (upsert st.extendedRoutes (stripSlash p) [])
        (stripSlash p) (fun l => l ++ [n1])) (stripSlash p) (fun l => l ++ [n2])),
      extendedController := (upsert (updateAssoc (updateAssoc
          (upsert st.extendedController n1 ⟨none, []⟩)
          n1 (fun c => { c with wrappers :=
            c.wrappers ++ [simpleEntry n1 (stripSlash p) a1] }))
          n1 (fun c => { c with wrappers :=
            c.wrappers ++ [simpleEntry n2 (stripSlash p) a2] }))
        n2 ⟨none, [simpleEntry n2 (stripSlash p) a2]⟩) } := by
    rw [hst1]
    simp [route, simpleDef, simpleEntry, pathKey, hlook1, hb12, hn1]
  have h2 : lookup' (route (route st n1 (simpleDef p a1)) n2 (simpleDef p a2)).extendedController
      n1 = some ⟨none, [simpleEntry n1 (stripSlash p) a1,
                        simpleEntry n2 (stripSlash p) a2]⟩ := by
    rw [hst2]
    show lookup' (upsert _ n2 _) n1 = _
    rw [lookup'_upsert_ne _ n2 n1 _ hne, lookup'_updateAssoc_self, lookup'_updateAssoc_self,
        lookup'_upsert_self]
    rfl
  refine ⟨?_, h2, ?_, ?_⟩
  · rw [hst2]
    exact hlook1
  · rw [hst2]
    show lookup' (upsert _ n2 _) n2 = _
    exact lookup'_upsert_self _ n2 _
  · simp only [processControllers, h2]
    simp [runWrapper, simpleEntry, simpleDef]

/-- Witness for C7: two registrations on `/p` from a fresh router, then
a dispatch of the owning chain running both actions in order. -/
theorem shared_path_appends_to_owner_chain_witness :
    processControllers 2
        (route (route (initState {} cexLoc) ("n1") (simpleDef ("/p") ("f1"))) ("n2")
          (simpleDef ("/p") ("f2"))) ("n1") (some [("7")]) false =
      ({ (route (route (initState {} cexLoc) ("n1") (simpleDef ("/p") ("f1"))) ("n2")
          (simpleDef ("/p") ("f2"))) with
          currentRoutes :=
            (route (route (initState {} cexLoc) ("n1") (simpleDef ("/p") ("f1"))) ("n2")
              (simpleDef ("/p") ("f2"))).currentRoutes ++ [("n1"), ("n2")] },
       [Event.ctrl ("n1") [("7")] false, Event.action ("f1") [("7")],
        Event.action ("f2") [("7")]],
       false) :=
  (shared_path_appends_to_owner_chain 0 (initState {} cexLoc) ("n1") ("n2") ("/p")
    ("f1") ("f2") [("7")] (by decide) (by decide) (by decide)).2.2.2

theorem allReNone_route (st : RouterState) (n : String) (d : RouteDef)
    (h : allReNone st) : allReNone (route st n d) := by
  have hupdate : ∀ (E : List (String × ChainRec)) (k : String)
      (f : ChainRec → ChainRec), (∀ c, (f c).re = c.re) →
      (∀ kc ∈ E, kc.2.re = none) → ∀ kc ∈ updateAssoc E k f, kc.2.re = none := by
    intro E k f hf hE kc hkc
    rcases mem_updateAssoc E k f kc hkc with hm | ⟨y, hy, hkcy⟩
    · exact hE kc hm
    · rw [hkcy]
      rw [show (y.1, f y.2).2 = f y.2 from rfl, hf]
      exact hE y hy
  have hup : ∀ (E : List (String × ChainRec)) (k : String) (v : ChainRec),
      v.re = none → (∀ kc ∈ E, kc.2.re = none) → ∀ kc ∈ upsert E k v, kc.2.re = none := by
    intro E k v hv hE kc hkc
    rcases mem_upsert E k v kc hkc with hm | hkcv
    · exact hE kc hm
    · rw [hkcv]
      exact hv
  cases hlk : lookup' st.routes (pathKey (d.path.map stripSlash)) with
  | none =>
    intro kc hkc
    rcases hc : d.close with hcn | g <;>
      by_cases hps : (d.path.map stripSlash).isSome = true <;>
        simp only [route, hlk, hc, hps, bne_self_eq_false, if_false, if_true,
          Bool.false_eq_true] at hkc <;>
      (refine hupdate _ _ _ ?_ (hup _ _ _ rfl h) kc hkc; intro c; rfl)
  | some owner =>
    intro kc hkc
    by_cases ht : truthyOpt (some owner) = true
    · by_cases how : (owner != n) = true
      · rcases hc : d.close with hcn | g <;>
          simp [route, hlk, ht, hc, how] at hkc <;>
          (refine hup _ _ _ rfl (hupdate _ _ _ ?_ h) kc hkc; intro c; rfl)
      · have how' : (owner != n) = false := by
          cases how2 : (owner != n) with
          | true => exact absurd how2 how
          | false => rfl
        rcases hc : d.close with hcn | g <;>
          simp [route, hlk, ht, hc, how'] at hkc <;>
          (refine hupdate _ _ _ ?_ h kc hkc; intro c; rfl)
    · have ht' : truthyOpt (some owner) = false := by
        cases ht2 : truthyOpt (some owner) with
        | true => exact absurd ht2 ht
        | false => rfl
      rcases hc : d.close with hcn | g <;>
        by_cases hps : (d.path.map stripSlash).isSome = true <;>
          simp [route, hlk, ht', hc, hps] at hkc <;>
        (refine hupdate _ _ _ ?_ (hup _ _ _ rfl h) kc hkc; intro c; rfl)

theorem route_optionsSet (st : RouterState) (n : String) (d : RouteDef) :
    (route st n d).optionsSet = st.optionsSet := by
  simp only [route]
  repeat' split
  all_goals rfl

theorem foldRoutes_optionsSet (regs : List (String × RouteDef)) :
    ∀ (st0 : RouterState),
    (regs.foldl (fun s nd => route s nd.1 nd.2) st0).optionsSet = st0.optionsSet := by
  induction regs with
  | nil =>
    intro st0
    rfl
  | cons nd rest ih =>
    intro st0
    simp only [List.foldl_cons]
    rw [ih (route st0 nd.1 nd.2), route_optionsSet]

theorem allReNone_foldRoutes (regs : List (String × RouteDef)) :
    ∀ (st0 : RouterState), allReNone st0 →
    allReNone (regs.foldl (fun s nd => route s nd.1 nd.2) st0) := by
  induction regs with
  | nil =>
    intro st0 h
    exact h
  | cons nd rest ih =>
    intro st0 h
    exact ih (route st0 nd.1 nd.2) (allReNone_route st0 nd.1 nd.2 h)

theorem routeExists_path_of_allReNone (st : RouterState) (h : allReNone st) (q : String) :
    routeExists st { path := some q } = false := by
  rw [routeExists]
  rw [if_neg (by simp [truthyOpt])]
  by_cases hq : truthyOpt (some q) = true
  · rw [if_pos hq]
    rw [List.any_eq_false]
    intro kc hkc
    rw [h kc hkc]
    simp
  · rw [if_neg hq]

/-- C9 counterexample: on a never started router with one registered
route, a path-based `go` to that route's own path enters the not-found
branch (the matcher is still null, so `exists({path})` is false), but
throws a TypeError at the branch's `this.options.log` access
(`this.options` being unassigned before `start`) before any 404
dispatch: no events, no 404 chain invocation, state untouched, instead
of the not-found handling (404 dispatch, `undefined` return) the claim
describes. -/
theorem prestart_path_go_throws_before_404 :
    cexStPre.optionsSet = false ∧
    routeExists cexStPre { path := some ("home") } = false ∧
    go 9 cexStPre (.obj { path := some ("/home") }) none none = (cexStPre, [], .thrown) ∧
    countCtrl ("404") (go 9 cexStPre (.obj { path := some ("/home") }) none none).2.1 = 0 := by
  refine ⟨by decide, by decide, rfl, by decide⟩

/-- C9 (amended): registrations alone never compile a matcher, so
before `start()` runs, `exists({path: q})` is false for every `q`,
including the paths of registered routes (first conjunct; the third
states the same for an options-assigned state whose matchers are
likewise still uncompiled).  A path-based `go({path: p})` on the
un-started router consequently enters the not-found branch, but throws
a TypeError at the branch's `this.options.log` access (`this.options`
is only assigned by `start`) before invoking the 404 chain: no events,
no state change (second conjunct).  Once `this.options` is assigned
while the matchers are still uncompiled (`start` bails out between the
two when it finds no dispatcher), the same call reaches the not-found
handling: its trace begins with the 404 chain invocation carrying the
current raw path (fourth conjunct), and with a simple `404` route
registered it runs that chain and returns `undefined` (fifth
conjunct). -/
theorem prestart_exists_path_false_and_404 (opts : Options) (loc : Location) (fuel : Nat)
    (regs : List (String × RouteDef)) (p : String)
    (hp : truthyOpt (some (stripSlash p)) = true) :
    (∀ q, routeExists (regs.foldl (fun s nd => route s nd.1 nd.2) (preStart loc))
        { path := some q } = false) ∧
    (go fuel (regs.foldl (fun s nd => route s nd.1 nd.2) (preStart loc))
        (.obj { path := some p }) none none =
      (regs.foldl (fun s nd => route s nd.1 nd.2) (preStart loc), [], .thrown)) ∧
    (∀ q, routeExists (regs.foldl (fun s nd => route s nd.1 nd.2) (initState opts loc))
        { path := some q } = false) ∧
    (∃ tail,
      (go fuel (regs.foldl (fun s nd => route s nd.1 nd.2) (initState opts loc))
          (.obj { path := some p }) none none).2.1 =
        Event.ctrl ("404")
          [rawPath (regs.foldl (fun s nd => route s nd.1 nd.2) (initState opts loc))]
          false :: tail) ∧
    (∀ re0 cn4 p4 a4,
      lookup' (regs.foldl (fun s nd => route s nd.1 nd.2)
          (initState opts loc)).extendedController ("404") =
        some ⟨re0, [⟨cn4, { path := p4, action := .fn a4 }⟩]⟩ →
      (go (fuel + 2) (regs.foldl (fun s nd => route s nd.1 nd.2) (initState opts loc))
          (.obj { path := some p }) none none).2.2 = .ret none) := by
  have htn : truthyOpt none = false := rfl
  have hallP : allReNone (regs.foldl (fun s nd => route s nd.1 nd.2) (preStart loc)) :=
    allReNone_foldRoutes regs (preStart loc) (by intro kc hkc; simp [preStart] at hkc)
  have hallI : allReNone (regs.foldl (fun s nd => route s nd.1 nd.2) (initState opts loc)) :=
    allReNone_foldRoutes regs (initState opts loc) (by intro kc hkc; simp [initState] at hkc)
  have hexP : ∀ q, routeExists (regs.foldl (fun s nd => route s nd.1 nd.2) (preStart loc))
      { path := some q } = false :=
    fun q => routeExists_path_of_allReNone _ hallP q
  have hexI : ∀ q, routeExists (regs.foldl (fun s nd => route s nd.1 nd.2) (initState opts loc))
      { path := some q } = false :=
    fun q => routeExists_path_of_allReNone _ hallI q
  have hoptP : (regs.foldl (fun s nd => route s nd.1 nd.2) (preStart loc)).optionsSet = false := by
    rw [foldRoutes_optionsSet]
    rfl
  have hoptI : (regs.foldl (fun s nd => route s nd.1 nd.2)
      (initState opts loc)).optionsSet = true := by
    rw [foldRoutes_optionsSet]
    rfl
  refine ⟨hexP, ?_, hexI, ?_, ?_⟩
  · simp [go, hp, hexP (stripSlash p), htn, hoptP]
  · rcases processControllers_trace_head fuel
        (regs.foldl (fun s nd => route s nd.1 nd.2) (initState opts loc)) ("404")
        (some [rawPath (regs.foldl (fun s nd => route s nd.1 nd.2) (initState opts loc))])
        false with ⟨tail, htail⟩
    refine ⟨tail, ?_⟩
    simp [go, hp, hexI (stripSlash p), htn, hoptI, htail]
  · intro re0 cn4 p4 a4 h404
    have hpc : processControllers (fuel + 2)
        (regs.foldl (fun s nd => route s nd.1 nd.2) (initState opts loc)) ("404")
        (some [rawPath (regs.foldl (fun s nd => route s nd.1 nd.2) (initState opts loc))])
        false =
        ({ (regs.foldl (fun s nd => route s nd.1 nd.2) (initState opts loc)) with
            currentRoutes := (regs.foldl (fun s nd => route s nd.1 nd.2)
              (initState opts loc)).currentRoutes ++ [cn4] },
         [Event.ctrl ("404")
            [rawPath (regs.foldl (fun s nd => route s nd.1 nd.2) (initState opts loc))] false,
          Event.action a4
            [rawPath (regs.foldl (fun s nd => route s nd.1 nd.2) (initState opts loc))]],
         false) := by
      simp only [processControllers, h404]
      simp [runWrapper]
    simp [go, hp, hexI (stripSlash p), htn, hoptI, hpc]

/-- Witness for the amended C9: one registered route, and a path-based
`go` to its own path on the never started router. -/
theorem prestart_exists_path_false_and_404_witness :
    routeExists (([(("home"), simpleDef ("/home") ("fh"))] :
        List (String × RouteDef)).foldl (fun s nd => route s nd.1 nd.2)
        (preStart cexLoc)) { path := some ("home") } = false :=
  (prestart_exists_path_false_and_404 {} cexLoc 3
    [(("home"), simpleDef ("/home") ("fh"))] ("/home") (by decide)).1 ("home")

end BRouter
